import Mathlib

/-!
Verification of the team-statistics aggregation of the myclub-management
repository (`calculateTeamStats` in the Firebase Cloud Functions module,
together with `hasClubPermission` and the shared `Match`/`TeamStats` types).

The data model and the operations are shallowly embedded: the Firestore
document store becomes association lists, the two equality queries become
list filters, the `forEach` accumulation becomes a left fold, and every
store read or write is given an explicit availability flag so that the
`try`/`catch` error paths of the source can be traced faithfully.
-/

namespace MyClub

/-- Match status, from `MatchStatus` in `src/shared/types/index.ts`. -/
inductive MatchStatus
  | scheduled
  | live
  | halftime
  | finished
  | postponed
  | cancelled
deriving DecidableEq

/-- Match result, from `MatchResult` in `src/shared/types/index.ts`:
goals plus optional penalty counts and notes. -/
structure MatchResult where
  homeGoals : Nat
  awayGoals : Nat
  homeTeamPenalties : Option Nat
  awayTeamPenalties : Option Nat
  notes : Option String
deriving DecidableEq

/-- The fields of a `Match` document that `calculateTeamStats` reads:
the two team ids, the status and the optional result. -/
structure Match where
  homeTeamId : String
  awayTeamId : String
  status : MatchStatus
  result : Option MatchResult
deriving DecidableEq

/-- Streak type of `StreakInfo` (`'win' | 'draw' | 'loss'`). -/
inductive StreakType
  | win
  | draw
  | loss
deriving DecidableEq

/-- `StreakInfo` from `src/shared/types/index.ts`. -/
structure StreakInfo where
  type : StreakType
  count : Nat
deriving DecidableEq

/-- `TeamStats` from `src/shared/types/index.ts`. -/
structure TeamStats where
  matchesPlayed : Nat
  wins : Nat
  draws : Nat
  losses : Nat
  goalsFor : Nat
  goalsAgainst : Nat
  points : Nat
  currentStreak : StreakInfo
deriving DecidableEq

/-- The mutable accumulator of `calculateTeamStats`
(`let wins = 0; let draws = 0; ...`). -/
structure Acc where
  wins : Nat
  draws : Nat
  losses : Nat
  goalsFor : Nat
  goalsAgainst : Nat
deriving DecidableEq

/-- One step of the home-match loop (`matchesSnapshot.docs.forEach`):
if a result is present, add the home goals to `goalsFor`, the away goals
to `goalsAgainst`, and increment exactly one of wins/draws/losses. -/
def processHome (acc : Acc) (m : Match) : Acc :=
  match m.result with
  | none => acc
  | some r =>
    let acc1 : Acc := { acc with
      goalsFor := acc.goalsFor + r.homeGoals
      goalsAgainst := acc.goalsAgainst + r.awayGoals }
    if r.awayGoals < r.homeGoals then { acc1 with wins := acc1.wins + 1 }
    else if r.homeGoals = r.awayGoals then { acc1 with draws := acc1.draws + 1 }
    else { acc1 with losses := acc1.losses + 1 }

/-- One step of the away-match loop (`awayMatchesSnapshot.docs.forEach`):
the roles of home and away goals are swapped. -/
def processAway (acc : Acc) (m : Match) : Acc :=
  match m.result with
  | none => acc
  | some r =>
    let acc1 : Acc := { acc with
      goalsFor := acc.goalsFor + r.awayGoals
      goalsAgainst := acc.goalsAgainst + r.homeGoals }
    if r.homeGoals < r.awayGoals then { acc1 with wins := acc1.wins + 1 }
    else if r.awayGoals = r.homeGoals then { acc1 with draws := acc1.draws + 1 }
    else { acc1 with losses := acc1.losses + 1 }

/-- The Firestore query `where('homeTeamId','==',teamId).where('status','==','finished')`. -/
def homeMatchesQuery (teamId : String) (ms : List Match) : List Match :=
  ms.filter (fun m => m.homeTeamId == teamId && m.status == MatchStatus.finished)

/-- The Firestore query `where('awayTeamId','==',teamId).where('status','==','finished')`. -/
def awayMatchesQuery (teamId : String) (ms : List Match) : List Match :=
  ms.filter (fun m => m.awayTeamId == teamId && m.status == MatchStatus.finished)

/-- The pure aggregation core of `calculateTeamStats`: run both queries over
the match collection, fold the home matches and then the away matches, and
assemble the `TeamStats` value; the streak is the hard-coded
`{ type: 'win', count: 0 }` of the source. -/
def computeStats (teamId : String) (ms : List Match) : TeamStats :=
  let homeMs := homeMatchesQuery teamId ms
  let awayMs := awayMatchesQuery teamId ms
  let acc1 := homeMs.foldl processHome ⟨0, 0, 0, 0, 0⟩
  let acc := awayMs.foldl processAway acc1
  { matchesPlayed := acc.wins + acc.draws + acc.losses
    wins := acc.wins
    draws := acc.draws
    losses := acc.losses
    goalsFor := acc.goalsFor
    goalsAgainst := acc.goalsAgainst
    points := acc.wins * 3 + acc.draws
    currentStreak := ⟨StreakType.win, 0⟩ }

/-- `MembershipStatus` from `src/shared/types/index.ts`. -/
inductive MembershipStatus
  | pending
  | active
  | suspended
  | inactive
deriving DecidableEq

/-- The fields of a `Team` document: `clubId` drives the permission check,
`stats` and `updatedAt` are written back, the rest is carried unchanged. -/
structure TeamDoc where
  clubId : String
  name : String
  category : String
  season : String
  players : List String
  stats : TeamStats
  createdAt : Nat
  updatedAt : Nat
deriving DecidableEq

/-- The document store: the `teams` collection keyed by team id, the
club-membership subcollections keyed by `(clubId, userId)`, and the
`matches` collection. -/
structure FirestoreState where
  teams : List (String × TeamDoc)
  memberships : List ((String × String) × MembershipStatus)
  matchDocs : List Match
deriving DecidableEq

/-- The `HttpsError` codes that `calculateTeamStats` can throw. -/
inductive ErrorCode
  | unauthenticated
  | invalidArgument
  | notFound
  | permissionDenied
  | internal
deriving DecidableEq

/-- Availability of each store operation the function performs, in program
order: the team read, the membership read inside `hasClubPermission`, the
two match queries, and the final team update. A `false` flag means that
store call throws. -/
structure Availability where
  teamRead : Bool
  membershipRead : Bool
  homeMatchesRead : Bool
  awayMatchesRead : Bool
  teamWrite : Bool
deriving DecidableEq

/-- Firestore `.doc(id).get()` over a collection held as an association
list: the document under the given key, if any. -/
def lookupDoc {α β : Type} [DecidableEq α] (a : α) : List (α × β) → Option β
  | [] => none
  | (k, v) :: t => if a = k then some v else lookupDoc a t

/-- `hasClubPermission`: read the membership doc of `userId` under the
club; a missing doc means no permission, otherwise the status must be
`active`. A store failure is caught inside the function (`catch ... return
false`), so an unavailable membership read also yields `false`. -/
def hasClubPermission (canRead : Bool)
    (memberships : List ((String × String) × MembershipStatus))
    (userId clubId : String) : Bool :=
  if canRead then
    match lookupDoc (clubId, userId) memberships with
    | none => false
    | some s => s == MembershipStatus.active
  else
    false

/-- The Firestore `update({ stats, updatedAt })` on the team document:
only the `stats` field and the `updatedAt` timestamp of the targeted
document are replaced. -/
def updateTeamDoc (teams : List (String × TeamDoc)) (teamId : String)
    (stats : TeamStats) (now : Nat) : List (String × TeamDoc) :=
  match teams with
  | [] => []
  | (k, v) :: t =>
    (if k = teamId then (k, { v with stats := stats, updatedAt := now }) else (k, v))
      :: updateTeamDoc t teamId stats now

/-- The whole `calculateTeamStats` callable, following the source's control
flow: auth check, `teamId` presence check, team read (`not-found` when the
doc does not exist), `hasClubPermission` (`permission-denied` when false),
the two match queries, the fold, and the final write. Any store call that
throws is converted to `internal` by the surrounding `catch`, except the
membership read, which `hasClubPermission` swallows. The state is returned
alongside the outcome; every failing path leaves it untouched. -/
def calculateTeamStatsRun (avail : Availability) (st : FirestoreState)
    (auth : Option String) (teamIdArg : Option String) (now : Nat) :
    FirestoreState × Except ErrorCode TeamStats :=
  match auth with
  | none => (st, Except.error ErrorCode.unauthenticated)
  | some uid =>
    match teamIdArg with
    | none => (st, Except.error ErrorCode.invalidArgument)
    | some teamId =>
      if teamId = "" then (st, Except.error ErrorCode.invalidArgument)
      else if avail.teamRead then
        match lookupDoc teamId st.teams with
        | none => (st, Except.error ErrorCode.notFound)
        | some team =>
          if hasClubPermission avail.membershipRead st.memberships uid team.clubId then
            if avail.homeMatchesRead then
              if avail.awayMatchesRead then
                let stats := computeStats teamId st.matchDocs
                if avail.teamWrite then
                  ({ st with teams := updateTeamDoc st.teams teamId stats now },
                    Except.ok stats)
                else (st, Except.error ErrorCode.internal)
              else (st, Except.error ErrorCode.internal)
            else (st, Except.error ErrorCode.internal)
          else (st, Except.error ErrorCode.permissionDenied)
      else (st, Except.error ErrorCode.internal)

/-- Goals scored by the home team in a match, zero when no result. -/
def homeScored (m : Match) : Nat :=
  match m.result with
  | some r => r.homeGoals
  | none => 0

/-- Goals conceded by the home team in a match, zero when no result. -/
def homeConceded (m : Match) : Nat :=
  match m.result with
  | some r => r.awayGoals
  | none => 0

/-- Goals scored by the away team in a match, zero when no result. -/
def awayScored (m : Match) : Nat :=
  match m.result with
  | some r => r.awayGoals
  | none => 0

/-- Goals conceded by the away team in a match, zero when no result. -/
def awayConceded (m : Match) : Nat :=
  match m.result with
  | some r => r.homeGoals
  | none => 0

/-- The match has a result and the home side won. -/
def isHomeWin (m : Match) : Bool :=
  match m.result with
  | some r => decide (r.awayGoals < r.homeGoals)
  | none => false

/-- The match has a result and it was a draw (home orientation). -/
def isHomeDraw (m : Match) : Bool :=
  match m.result with
  | some r => decide (r.homeGoals = r.awayGoals)
  | none => false

/-- The match has a result and the home side lost. -/
def isHomeLoss (m : Match) : Bool :=
  match m.result with
  | some r => decide (r.homeGoals < r.awayGoals)
  | none => false

/-- The match has a result and the away side won. -/
def isAwayWin (m : Match) : Bool :=
  match m.result with
  | some r => decide (r.homeGoals < r.awayGoals)
  | none => false

/-- The match has a result and it was a draw (away orientation). -/
def isAwayDraw (m : Match) : Bool :=
  match m.result with
  | some r => decide (r.awayGoals = r.homeGoals)
  | none => false

/-- The match has a result and the away side lost. -/
def isAwayLoss (m : Match) : Bool :=
  match m.result with
  | some r => decide (r.awayGoals < r.homeGoals)
  | none => false

/-- Counted home matches of a team: the home query restricted to matches
carrying a result. -/
def countedHome (teamId : String) (ms : List Match) : List Match :=
  (homeMatchesQuery teamId ms).filter (fun m => m.result.isSome)

/-- Counted away matches of a team: the away query restricted to matches
carrying a result. -/
def countedAway (teamId : String) (ms : List Match) : List Match :=
  (awayMatchesQuery teamId ms).filter (fun m => m.result.isSome)

/-- Clearing the penalty fields of a match result, used to say that two
match sets agree up to penalties. -/
def stripPenalties (m : Match) : Match :=
  { m with result := m.result.map (fun r =>
      { r with homeTeamPenalties := none, awayTeamPenalties := none }) }

/-- Total wins of a team over both query results. -/
def winCount (teamId : String) (ms : List Match) : Nat :=
  (homeMatchesQuery teamId ms).countP isHomeWin
    + (awayMatchesQuery teamId ms).countP isAwayWin

/-- Total draws of a team over both query results. -/
def drawCount (teamId : String) (ms : List Match) : Nat :=
  (homeMatchesQuery teamId ms).countP isHomeDraw
    + (awayMatchesQuery teamId ms).countP isAwayDraw

/-- Total losses of a team over both query results. -/
def lossCount (teamId : String) (ms : List Match) : Nat :=
  (homeMatchesQuery teamId ms).countP isHomeLoss
    + (awayMatchesQuery teamId ms).countP isAwayLoss

/-- Total goals scored by a team over both query results. -/
def goalsForSum (teamId : String) (ms : List Match) : Nat :=
  ((homeMatchesQuery teamId ms).map homeScored).sum
    + ((awayMatchesQuery teamId ms).map awayScored).sum

/-- Total goals conceded by a team over both query results. -/
def goalsAgainstSum (teamId : String) (ms : List Match) : Nat :=
  ((homeMatchesQuery teamId ms).map homeConceded).sum
    + ((awayMatchesQuery teamId ms).map awayConceded).sum

/-- A 3-1 home win of team "A" over team "B", the spec's home-win
scenario. -/
def mAB : Match := ⟨"A", "B", MatchStatus.finished, some ⟨3, 1, none, none, none⟩⟩

/-- A finished match between "A" and "B" with no recorded result. -/
def mNoRes : Match := ⟨"A", "B", MatchStatus.finished, none⟩

/-- A 2-2 draw between "A" and "B" with no penalty shootout recorded. -/
def mDraw22 : Match := ⟨"A", "B", MatchStatus.finished, some ⟨2, 2, none, none, none⟩⟩

/-- The same 2-2 draw, decided 5-4 on penalties. -/
def mDrawPen : Match := ⟨"A", "B", MatchStatus.finished, some ⟨2, 2, some 5, some 4, none⟩⟩

/-- All-zero statistics, the initial stats of a fresh team document. -/
def zeroStats : TeamStats := ⟨0, 0, 0, 0, 0, 0, 0, ⟨StreakType.win, 0⟩⟩

/-- A sample team document of club "c1". -/
def exTeam : TeamDoc := ⟨"c1", "Team One", "men_senior", "2024", [], zeroStats, 0, 0⟩

/-- A sample store: one team "t1" in club "c1", user "u" an active member
of "c1", and one finished 3-1 home win of "t1". -/
def exState : FirestoreState :=
  ⟨[("t1", exTeam)], [(("c1", "u"), MembershipStatus.active)],
    [⟨"t1", "B", MatchStatus.finished, some ⟨3, 1, none, none, none⟩⟩]⟩

/-- All store operations available. -/
def availAll : Availability := ⟨true, true, true, true, true⟩

/-- All store operations available except the membership read inside
`hasClubPermission`. -/
def mbUnavail : Availability := ⟨true, false, true, true, true⟩

/-- The stats of "t1" aggregated from `exState`. -/
def exStats1 : TeamStats := ⟨1, 1, 0, 0, 3, 1, 3, ⟨StreakType.win, 0⟩⟩

/-- The team document of "t1" after a successful run at time 7. -/
def exTeamAfter : TeamDoc := { exTeam with stats := exStats1, updatedAt := 7 }

/-- The store after a successful run for "t1" at time 7. -/
def exStateAfter : FirestoreState :=
  ⟨[("t1", exTeamAfter)], exState.memberships, exState.matchDocs⟩

deriving instance DecidableEq for Except

/-- The home-match fold written as counts and sums over the list. -/
lemma foldl_processHome_eq (l : List Match) (a : Acc) :
    l.foldl processHome a =
      ⟨a.wins + l.countP isHomeWin, a.draws + l.countP isHomeDraw,
        a.losses + l.countP isHomeLoss, a.goalsFor + (l.map homeScored).sum,
        a.goalsAgainst + (l.map homeConceded).sum⟩ := by
  induction l generalizing a with
  | nil => cases a; simp
  | cons m t ih =>
    rw [List.foldl_cons, ih]
    simp only [List.countP_cons, List.map_cons, List.sum_cons, Acc.mk.injEq]
    cases hr : m.result with
    | none =>
      simp [processHome, hr, isHomeWin, isHomeDraw, isHomeLoss, homeScored, homeConceded]
    | some r =>
      rcases Nat.lt_trichotomy r.awayGoals r.homeGoals with hw | hd | hl
      · have hne : ¬ r.homeGoals = r.awayGoals := by omega
        have hnl : ¬ r.homeGoals < r.awayGoals := by omega
        simp [processHome, hr, isHomeWin, isHomeDraw, isHomeLoss, homeScored, homeConceded,
          hw, hne, hnl]
        omega
      · have hd' : r.homeGoals = r.awayGoals := hd.symm
        have hnw : ¬ r.awayGoals < r.homeGoals := by omega
        have hnl : ¬ r.homeGoals < r.awayGoals := by omega
        simp [processHome, hr, isHomeWin, isHomeDraw, isHomeLoss, homeScored, homeConceded,
          hd', hnw, hnl]
        omega
      · have hne : ¬ r.homeGoals = r.awayGoals := by omega
        have hnw : ¬ r.awayGoals < r.homeGoals := by omega
        simp [processHome, hr, isHomeWin, isHomeDraw, isHomeLoss, homeScored, homeConceded,
          hl, hne, hnw]
        omega

/-- The away-match fold written as counts and sums over the list. -/
lemma foldl_processAway_eq (l : List Match) (a : Acc) :
    l.foldl processAway a =
      ⟨a.wins + l.countP isAwayWin, a.draws + l.countP isAwayDraw,
        a.losses + l.countP isAwayLoss, a.goalsFor + (l.map awayScored).sum,
        a.goalsAgainst + (l.map awayConceded).sum⟩ := by
  induction l generalizing a with
  | nil => cases a; simp
  | cons m t ih =>
    rw [List.foldl_cons, ih]
    simp only [List.countP_cons, List.map_cons, List.sum_cons, Acc.mk.injEq]
    cases hr : m.result with
    | none =>
      simp [processAway, hr, isAwayWin, isAwayDraw, isAwayLoss, awayScored, awayConceded]
    | some r =>
      rcases Nat.lt_trichotomy r.homeGoals r.awayGoals with hw | hd | hl
      · have hne : ¬ r.awayGoals = r.homeGoals := by omega
        have hnl : ¬ r.awayGoals < r.homeGoals := by omega
        simp [processAway, hr, isAwayWin, isAwayDraw, isAwayLoss, awayScored, awayConceded,
          hw, hne, hnl]
        omega
      · have hd' : r.awayGoals = r.homeGoals := hd.symm
        have hnw : ¬ r.homeGoals < r.awayGoals := by omega
        have hnl : ¬ r.awayGoals < r.homeGoals := by omega
        simp [processAway, hr, isAwayWin, isAwayDraw, isAwayLoss, awayScored, awayConceded,
          hd', hnw, hnl]
        omega
      · have hne : ¬ r.awayGoals = r.homeGoals := by omega
        have hnw : ¬ r.homeGoals < r.awayGoals := by omega
        simp [processAway, hr, isAwayWin, isAwayDraw, isAwayLoss, awayScored, awayConceded,
          hl, hne, hnw]
        omega

/-- Closed form of the aggregation: every field of the computed stats is a
count or a sum over the two query results. -/
lemma computeStats_eq (teamId : String) (ms : List Match) :
    computeStats teamId ms =
      ⟨winCount teamId ms + drawCount teamId ms + lossCount teamId ms,
        winCount teamId ms, drawCount teamId ms, lossCount teamId ms,
        goalsForSum teamId ms, goalsAgainstSum teamId ms,
        winCount teamId ms * 3 + drawCount teamId ms,
        ⟨StreakType.win, 0⟩⟩ := by
  unfold computeStats
  dsimp only
  rw [foldl_processHome_eq, foldl_processAway_eq]
  dsimp only
  simp only [winCount, drawCount, lossCount, goalsForSum, goalsAgainstSum,
    TeamStats.mk.injEq]
  refine ⟨by omega, by omega, by omega, by omega, by omega, by omega, by omega, trivial⟩

/-- Updating a team document changes its own lookup result to the updated
document. -/
lemma lookupDoc_updateTeamDoc_self (teams : List (String × TeamDoc)) (teamId : String)
    (stats : TeamStats) (now : Nat) (team : TeamDoc)
    (h : lookupDoc teamId teams = some team) :
    lookupDoc teamId (updateTeamDoc teams teamId stats now)
      = some { team with stats := stats, updatedAt := now } := by
  induction teams with
  | nil => simp [lookupDoc] at h
  | cons p t ih =>
    obtain ⟨k, v⟩ := p
    simp only [lookupDoc] at h
    simp only [updateTeamDoc]
    by_cases hk : teamId = k
    · rw [if_pos hk.symm]
      rw [if_pos hk] at h
      simp only [lookupDoc]
      rw [if_pos hk]
      obtain rfl : v = team := Option.some.inj h
      rfl
    · have hk' : ¬ k = teamId := fun e => hk e.symm
      rw [if_neg hk']
      rw [if_neg hk] at h
      simp only [lookupDoc]
      rw [if_neg hk]
      exact ih h

/-- Updating a team document leaves every other document's lookup
unchanged. -/
lemma lookupDoc_updateTeamDoc_other (teams : List (String × TeamDoc)) (teamId : String)
    (stats : TeamStats) (now : Nat) (t' : String) (h : t' ≠ teamId) :
    lookupDoc t' (updateTeamDoc teams teamId stats now) = lookupDoc t' teams := by
  induction teams with
  | nil => simp [updateTeamDoc]
  | cons p t ih =>
    obtain ⟨k, v⟩ := p
    simp only [updateTeamDoc]
    by_cases hk : k = teamId
    · rw [if_pos hk]
      simp only [lookupDoc]
      have ht : ¬ t' = k := by rw [hk]; exact h
      rw [if_neg ht, if_neg ht]
      exact ih
    · rw [if_neg hk]
      simp only [lookupDoc]
      by_cases ht : t' = k
      · rw [if_pos ht, if_pos ht]
      · rw [if_neg ht, if_neg ht]
        exact ih

/-- Case analysis on a run of `calculateTeamStatsRun`: either it fails and
returns the state untouched, or every check passed and it returns the
computed stats together with the single-document update. -/
lemma calcRun_shape (avail : Availability) (st : FirestoreState)
    (auth teamIdArg : Option String) (now : Nat) :
    (∃ e, calculateTeamStatsRun avail st auth teamIdArg now = (st, Except.error e)) ∨
    (∃ uid teamId team,
      auth = some uid ∧ teamIdArg = some teamId ∧ ¬ teamId = "" ∧
      avail.teamRead = true ∧ avail.homeMatchesRead = true ∧
      avail.awayMatchesRead = true ∧ avail.teamWrite = true ∧
      lookupDoc teamId st.teams = some team ∧
      hasClubPermission avail.membershipRead st.memberships uid team.clubId = true ∧
      calculateTeamStatsRun avail st auth teamIdArg now =
        ({ st with teams := updateTeamDoc st.teams teamId (computeStats teamId st.matchDocs) now },
          Except.ok (computeStats teamId st.matchDocs))) := by
  unfold calculateTeamStatsRun
  cases auth with
  | none => exact Or.inl ⟨_, rfl⟩
  | some uid =>
    cases teamIdArg with
    | none => exact Or.inl ⟨_, rfl⟩
    | some teamId =>
      dsimp only
      by_cases he : teamId = ""
      · rw [if_pos he]
        exact Or.inl ⟨_, rfl⟩
      rw [if_neg he]
      by_cases htr : avail.teamRead = true
      case neg =>
        rw [if_neg htr]
        exact Or.inl ⟨_, rfl⟩
      rw [if_pos htr]
      cases hlk : lookupDoc teamId st.teams with
      | none => exact Or.inl ⟨_, rfl⟩
      | some team =>
        dsimp only
        by_cases hp : hasClubPermission avail.membershipRead st.memberships uid team.clubId = true
        case neg =>
          rw [if_neg hp]
          exact Or.inl ⟨_, rfl⟩
        rw [if_pos hp]
        by_cases hh : avail.homeMatchesRead = true
        case neg =>
          rw [if_neg hh]
          exact Or.inl ⟨_, rfl⟩
        rw [if_pos hh]
        by_cases ha : avail.awayMatchesRead = true
        case neg =>
          rw [if_neg ha]
          exact Or.inl ⟨_, rfl⟩
        rw [if_pos ha]
        by_cases hw : avail.teamWrite = true
        case neg =>
          rw [if_neg hw]
          exact Or.inl ⟨_, rfl⟩
        rw [if_pos hw]
        exact Or.inr ⟨uid, teamId, team, rfl, rfl, he, htr, hh, ha, hw, hlk, hp, rfl⟩

/-- A successful run pins down every intermediate step: all checks passed,
the returned stats are the pure aggregation, and the final state is the
input state with only the team's document updated. -/
lemma calcRun_ok_elim (avail : Availability) (st : FirestoreState)
    (auth teamIdArg : Option String) (now : Nat) (st' : FirestoreState) (s : TeamStats)
    (h : calculateTeamStatsRun avail st auth teamIdArg now = (st', Except.ok s)) :
    ∃ uid teamId team,
      auth = some uid ∧ teamIdArg = some teamId ∧ ¬ teamId = "" ∧
      avail.teamRead = true ∧ avail.homeMatchesRead = true ∧
      avail.awayMatchesRead = true ∧ avail.teamWrite = true ∧
      lookupDoc teamId st.teams = some team ∧
      hasClubPermission avail.membershipRead st.memberships uid team.clubId = true ∧
      s = computeStats teamId st.matchDocs ∧
      st' = { st with teams := updateTeamDoc st.teams teamId s now } := by
  rcases calcRun_shape avail st auth teamIdArg now with ⟨e, hsh⟩ |
    ⟨uid, teamId, team, hauth, htid, he, htr, hh, ha, hw, hlk, hp, hsh⟩
  · rw [hsh] at h
    exact absurd (Prod.ext_iff.mp h).2 (by simp)
  · rw [hsh] at h
    obtain ⟨h1, h2⟩ := Prod.ext_iff.mp h
    dsimp only at h1 h2
    have hs : s = computeStats teamId st.matchDocs := (Except.ok.inj h2).symm
    exact ⟨uid, teamId, team, hauth, htid, he, htr, hh, ha, hw, hlk, hp, hs, by rw [← h1, hs]⟩

/-- Every failing run leaves the store exactly as it was. -/
lemma calcRun_error_state (avail : Availability) (st : FirestoreState)
    (auth teamIdArg : Option String) (now : Nat) (st' : FirestoreState) (e : ErrorCode)
    (h : calculateTeamStatsRun avail st auth teamIdArg now = (st', Except.error e)) :
    st' = st := by
  rcases calcRun_shape avail st auth teamIdArg now with ⟨e', hsh⟩ |
    ⟨uid, teamId, team, hauth, htid, he, htr, hh, ha, hw, hlk, hp, hsh⟩
  · rw [hsh] at h
    exact (Prod.ext_iff.mp h).1.symm
  · rw [hsh] at h
    exact absurd (Prod.ext_iff.mp h).2 (by simp)

/-- Restricting a sum to the matches carrying a result loses nothing when
the summand vanishes on result-less matches. -/
lemma sum_map_filter_isSome (f : Match → Nat) (hf : ∀ m, m.result = none → f m = 0)
    (l : List Match) :
    ((l.filter (fun m => m.result.isSome)).map f).sum = (l.map f).sum := by
  induction l with
  | nil => rfl
  | cons m t ih =>
    cases hr : m.result with
    | none => simp [List.filter_cons, hr, hf m hr, ih]
    | some r => simp [List.filter_cons, hr, ih]

/-- The home fold step ignores the penalty fields. -/
lemma processHome_strip (acc : Acc) (m : Match) :
    processHome acc (stripPenalties m) = processHome acc m := by
  cases hr : m.result <;> simp [processHome, stripPenalties, hr]

/-- The away fold step ignores the penalty fields. -/
lemma processAway_strip (acc : Acc) (m : Match) :
    processAway acc (stripPenalties m) = processAway acc m := by
  cases hr : m.result <;> simp [processAway, stripPenalties, hr]

/-- Stripping penalties commutes with the home query. -/
lemma homeQuery_strip (teamId : String) (ms : List Match) :
    homeMatchesQuery teamId (ms.map stripPenalties)
      = (homeMatchesQuery teamId ms).map stripPenalties := by
  unfold homeMatchesQuery
  rw [List.filter_map]
  congr 1

/-- Stripping penalties commutes with the away query. -/
lemma awayQuery_strip (teamId : String) (ms : List Match) :
    awayMatchesQuery teamId (ms.map stripPenalties)
      = (awayMatchesQuery teamId ms).map stripPenalties := by
  unfold awayMatchesQuery
  rw [List.filter_map]
  congr 1

/-- The aggregation never reads the penalty fields. -/
lemma computeStats_strip (teamId : String) (ms : List Match) :
    computeStats teamId (ms.map stripPenalties) = computeStats teamId ms := by
  unfold computeStats
  dsimp only
  rw [homeQuery_strip, awayQuery_strip, List.foldl_map, List.foldl_map,
    List.foldl_ext _ processHome _ (fun a b _ => processHome_strip a b),
    List.foldl_ext _ processAway _ (fun a b _ => processAway_strip a b)]

/-- The outcome of a run depends on the match collection only through the
aggregation: two match collections that aggregate identically for every
team produce the same outcome, error or success. -/
lemma calcRun_matchDocs_congr (avail : Availability)
    (teams : List (String × TeamDoc))
    (mem : List ((String × String) × MembershipStatus)) (ms ms' : List Match)
    (auth teamIdArg : Option String) (now : Nat)
    (h : ∀ tid, computeStats tid ms = computeStats tid ms') :
    (calculateTeamStatsRun avail ⟨teams, mem, ms⟩ auth teamIdArg now).2
      = (calculateTeamStatsRun avail ⟨teams, mem, ms'⟩ auth teamIdArg now).2 := by
  unfold calculateTeamStatsRun
  cases auth with
  | none => rfl
  | some uid =>
    cases teamIdArg with
    | none => rfl
    | some teamId =>
      dsimp only
      by_cases he : teamId = ""
      · rw [if_pos he, if_pos he]
      rw [if_neg he, if_neg he]
      by_cases htr : avail.teamRead = true
      case neg =>
        rw [if_neg htr, if_neg htr]
      rw [if_pos htr, if_pos htr]
      cases hlk : lookupDoc teamId teams with
      | none => rfl
      | some team =>
        dsimp only
        by_cases hp : hasClubPermission avail.membershipRead mem uid team.clubId = true
        case neg =>
          rw [if_neg hp, if_neg hp]
        rw [if_pos hp, if_pos hp]
        by_cases hh : avail.homeMatchesRead = true
        case neg =>
          rw [if_neg hh, if_neg hh]
        rw [if_pos hh, if_pos hh]
        by_cases ha : avail.awayMatchesRead = true
        case neg =>
          rw [if_neg ha, if_neg ha]
        rw [if_pos ha, if_pos ha]
        by_cases hw : avail.teamWrite = true
        case neg =>
          rw [if_neg hw, if_neg hw]
        rw [if_pos hw, if_pos hw]
        dsimp only
        rw [h teamId]

/-- Inserting a result-less match anywhere in the collection leaves the
aggregation unchanged: both fold steps skip a match with no result. -/
lemma computeStats_insert_noResult (tid : String) (ms1 ms2 : List Match) (m : Match)
    (hres : m.result = none) :
    computeStats tid (ms1 ++ m :: ms2) = computeStats tid (ms1 ++ ms2) := by
  have hph : ∀ a, processHome a m = a := fun a => by simp [processHome, hres]
  have hpa : ∀ a, processAway a m = a := fun a => by simp [processAway, hres]
  unfold computeStats homeMatchesQuery awayMatchesQuery
  dsimp only
  simp only [List.filter_append, List.filter_cons]
  by_cases h1 : (m.homeTeamId == tid && m.status == MatchStatus.finished) = true <;>
    by_cases h2 : (m.awayTeamId == tid && m.status == MatchStatus.finished) = true <;>
    simp [h1, h2, List.foldl_append, hph, hpa]

/-- C1: for every collection of matches, the stats computed by
`calculateTeamStats` satisfy `matchesPlayed = wins + draws + losses` and
`points = 3*wins + draws`, and `goalsFor`/`goalsAgainst` are the sums of
the goals scored by / conceded against the team over all counted matches
(the finished matches of either query that carry a result). -/
theorem c1_stats_invariants (teamId : String) (ms : List Match) :
    (computeStats teamId ms).matchesPlayed
        = (computeStats teamId ms).wins + (computeStats teamId ms).draws
          + (computeStats teamId ms).losses ∧
    (computeStats teamId ms).points
        = 3 * (computeStats teamId ms).wins + (computeStats teamId ms).draws ∧
    (computeStats teamId ms).goalsFor
        = ((countedHome teamId ms).map homeScored).sum
          + ((countedAway teamId ms).map awayScored).sum ∧
    (computeStats teamId ms).goalsAgainst
        = ((countedHome teamId ms).map homeConceded).sum
          + ((countedAway teamId ms).map awayConceded).sum := by
  rw [computeStats_eq]
  refine ⟨rfl, by dsimp only; omega, ?_, ?_⟩
  · dsimp only
    unfold goalsForSum countedHome countedAway
    rw [sum_map_filter_isSome homeScored (fun m hm => by simp [homeScored, hm]),
      sum_map_filter_isSome awayScored (fun m hm => by simp [awayScored, hm])]
  · dsimp only
    unfold goalsAgainstSum countedHome countedAway
    rw [sum_map_filter_isSome homeConceded (fun m hm => by simp [homeConceded, hm]),
      sum_map_filter_isSome awayConceded (fun m hm => by simp [awayConceded, hm])]

/-- C2: a match whose status is finished but whose result is absent is
excluded from the aggregation of every team — removing it changes neither
`computeStats` output, for any team, nor the outcome of any run of the
callable (no error is raised for it). -/
theorem c2_finished_without_result_skipped (tid : String) (ms1 ms2 : List Match) (m : Match)
    (_hst : m.status = MatchStatus.finished) (hres : m.result = none) :
    computeStats tid (ms1 ++ m :: ms2) = computeStats tid (ms1 ++ ms2) ∧
    ∀ (avail : Availability) (st : FirestoreState) (auth teamIdArg : Option String) (now : Nat),
      (calculateTeamStatsRun avail { st with matchDocs := ms1 ++ m :: ms2 } auth teamIdArg now).2
        = (calculateTeamStatsRun avail { st with matchDocs := ms1 ++ ms2 } auth teamIdArg now).2 := by
  refine ⟨computeStats_insert_noResult tid ms1 ms2 m hres, ?_⟩
  intro avail st auth teamIdArg now
  exact calcRun_matchDocs_congr avail st.teams st.memberships _ _ auth teamIdArg now
    (fun tid' => computeStats_insert_noResult tid' ms1 ms2 m hres)

/-- C2 witness: the skip property evaluated on the concrete finished
result-less match `mNoRes` next to the 3-1 win `mAB`. -/
theorem c2_finished_without_result_skipped_witness :
    (mNoRes.status = MatchStatus.finished ∧ mNoRes.result = none) ∧
    (computeStats "A" ([mAB] ++ mNoRes :: []) = computeStats "A" ([mAB] ++ []) ∧
      ∀ (avail : Availability) (st : FirestoreState) (auth teamIdArg : Option String) (now : Nat),
        (calculateTeamStatsRun avail { st with matchDocs := [mAB] ++ mNoRes :: [] } auth teamIdArg now).2
          = (calculateTeamStatsRun avail { st with matchDocs := [mAB] ++ [] } auth teamIdArg now).2) :=
  ⟨⟨rfl, rfl⟩, c2_finished_without_result_skipped "A" [mAB] [] mNoRes rfl rfl⟩

/-- C3: for the single finished match A 3-1 B, team A's aggregate is one
win with 3 goals for and 1 against, and team B's aggregate is one loss
with 1 goal for and 3 against. -/
theorem c3_home_win_scenario :
    computeStats "A" [mAB] = ⟨1, 1, 0, 0, 3, 1, 3, ⟨StreakType.win, 0⟩⟩ ∧
    computeStats "B" [mAB] = ⟨1, 0, 0, 1, 1, 3, 0, ⟨StreakType.win, 0⟩⟩ :=
  ⟨by decide, by decide⟩

/-- C4: when the requested team id references no team document, the run
fails with the not-found error and returns the store untouched; and more
generally every failing run leaves the store exactly as it was. -/
theorem c4_not_found_no_write (avail : Availability) (st : FirestoreState)
    (uid teamId : String) (now : Nat) :
    (avail.teamRead = true → teamId ≠ "" → lookupDoc teamId st.teams = none →
      calculateTeamStatsRun avail st (some uid) (some teamId) now
        = (st, Except.error ErrorCode.notFound)) ∧
    (∀ (auth teamIdArg : Option String) (st' : FirestoreState) (e : ErrorCode),
      calculateTeamStatsRun avail st auth teamIdArg now = (st', Except.error e) →
      st' = st) := by
  constructor
  · intro htr hne hlk
    unfold calculateTeamStatsRun
    dsimp only
    rw [if_neg hne, if_pos htr, hlk]
  · intro auth teamIdArg st' e h
    exact calcRun_error_state avail st auth teamIdArg now st' e h

/-- C4 witness: requesting the nonexistent team "t9" in the sample store
fails with not-found and performs no write. -/
theorem c4_not_found_no_write_witness :
    (availAll.teamRead = true ∧ ("t9" : String) ≠ "" ∧ lookupDoc "t9" exState.teams = none) ∧
    calculateTeamStatsRun availAll exState (some "u") (some "t9") 7
      = (exState, Except.error ErrorCode.notFound) :=
  ⟨⟨rfl, by decide, by decide⟩,
    (c4_not_found_no_write availAll exState "u" "t9" 7).1 rfl (by decide) (by decide)⟩

/-- C5: the `currentStreak` of the computed stats is the hard-coded
`{ type: win, count: 0 }` for every input, both in the value returned by
the aggregation and in the team document stored by a successful run. -/
theorem c5_streak_hardcoded :
    (∀ (teamId : String) (ms : List Match),
      (computeStats teamId ms).currentStreak = ⟨StreakType.win, 0⟩) ∧
    (∀ (avail : Availability) (st st' : FirestoreState) (auth teamIdArg : Option String)
        (now : Nat) (s : TeamStats) (teamId : String) (team' : TeamDoc),
      calculateTeamStatsRun avail st auth teamIdArg now = (st', Except.ok s) →
      s.currentStreak = ⟨StreakType.win, 0⟩ ∧
      (teamIdArg = some teamId → lookupDoc teamId st'.teams = some team' →
        team'.stats.currentStreak = ⟨StreakType.win, 0⟩)) := by
  have hpure : ∀ (teamId : String) (ms : List Match),
      (computeStats teamId ms).currentStreak = ⟨StreakType.win, 0⟩ := by
    intro teamId ms
    rw [computeStats_eq]
  refine ⟨hpure, ?_⟩
  intro avail st st' auth teamIdArg now s teamId team' h
  obtain ⟨uid, tid, team, hauth, htid, he, htr, hh, ha, hw, hlk, hp, hs, hst'⟩ :=
    calcRun_ok_elim avail st auth teamIdArg now st' s h
  subst hs hst'
  refine ⟨hpure _ _, ?_⟩
  intro htid' hlk'
  obtain rfl : tid = teamId := Option.some.inj (htid ▸ htid')
  rw [show ({ st with teams := updateTeamDoc st.teams tid (computeStats tid st.matchDocs) now } : FirestoreState).teams
      = updateTeamDoc st.teams tid (computeStats tid st.matchDocs) now from rfl,
    lookupDoc_updateTeamDoc_self st.teams tid _ now team hlk] at hlk'
  obtain rfl : { team with stats := computeStats tid st.matchDocs, updatedAt := now } = team' :=
    Option.some.inj hlk'
  exact hpure _ _

/-- C5 witness: the hard-coded streak observed on a concrete successful
run over the sample store. -/
theorem c5_streak_hardcoded_witness :
    calculateTeamStatsRun availAll exState (some "u") (some "t1") 7
      = (exStateAfter, Except.ok exStats1) ∧
    (exStats1.currentStreak = ⟨StreakType.win, 0⟩ ∧
      (some "t1" = some "t1" → lookupDoc "t1" exStateAfter.teams = some exTeamAfter →
        exTeamAfter.stats.currentStreak = ⟨StreakType.win, 0⟩)) :=
  ⟨by decide,
    c5_streak_hardcoded.2 availAll exState exStateAfter (some "u") (some "t1") 7 exStats1 "t1"
      exTeamAfter (by decide)⟩

/-- C6: the aggregate is invariant under any permutation of the match
collection — every field of the computed stats is a commutative count or
sum over the two query results. -/
theorem c6_order_invariance (teamId : String) (ms ms' : List Match) (h : ms.Perm ms') :
    computeStats teamId ms = computeStats teamId ms' := by
  have hh : (homeMatchesQuery teamId ms).Perm (homeMatchesQuery teamId ms') :=
    h.filter _
  have ha : (awayMatchesQuery teamId ms).Perm (awayMatchesQuery teamId ms') :=
    h.filter _
  rw [computeStats_eq, computeStats_eq]
  unfold winCount drawCount lossCount goalsForSum goalsAgainstSum
  rw [hh.countP_eq isHomeWin, hh.countP_eq isHomeDraw, hh.countP_eq isHomeLoss,
    ha.countP_eq isAwayWin, ha.countP_eq isAwayDraw, ha.countP_eq isAwayLoss,
    (hh.map homeScored).sum_eq, (hh.map homeConceded).sum_eq,
    (ha.map awayScored).sum_eq, (ha.map awayConceded).sum_eq]

/-- C6 witness: order invariance evaluated on swapping two concrete
matches. -/
theorem c6_order_invariance_witness :
    ([mDraw22, mAB].Perm [mAB, mDraw22]) ∧
    computeStats "A" [mDraw22, mAB] = computeStats "A" [mAB, mDraw22] :=
  ⟨List.Perm.swap mAB mDraw22 [],
    c6_order_invariance "A" [mDraw22, mAB] [mAB, mDraw22] (List.Perm.swap mAB mDraw22 [])⟩

/-- C7: running the aggregation again on the state a successful run
produced (same team, unchanged match set) returns the very same stats —
the computation is a pure function of the team id and the match set, and
the write it performs does not influence a later run. -/
theorem c7_idempotent_rerun (avail : Availability) (st st1 : FirestoreState)
    (auth teamIdArg : Option String) (now now' : Nat) (s1 : TeamStats)
    (h : calculateTeamStatsRun avail st auth teamIdArg now = (st1, Except.ok s1)) :
    (calculateTeamStatsRun avail st1 auth teamIdArg now').2 = Except.ok s1 := by
  obtain ⟨uid, teamId, team, hauth, htid, he, htr, hh, ha, hw, hlk, hp, hs, hst'⟩ :=
    calcRun_ok_elim avail st auth teamIdArg now st1 s1 h
  subst hauth htid hs hst'
  unfold calculateTeamStatsRun
  dsimp only
  rw [if_neg he, if_pos htr,
    lookupDoc_updateTeamDoc_self st.teams teamId _ now team hlk]
  dsimp only
  rw [if_pos hp, if_pos hh, if_pos ha]
  rw [if_pos hw]

/-- C7 witness: a concrete successful run over the sample store followed
by a second run at a later timestamp returns the same stats. -/
theorem c7_idempotent_rerun_witness :
    calculateTeamStatsRun availAll exState (some "u") (some "t1") 7
      = (exStateAfter, Except.ok exStats1) ∧
    (calculateTeamStatsRun availAll exStateAfter (some "u") (some "t1") 9).2
      = Except.ok exStats1 :=
  ⟨by decide,
    c7_idempotent_rerun availAll exState exStateAfter (some "u") (some "t1") 7 9 exStats1
      (by decide)⟩

/-- C8 counterexample: with the membership read unavailable and every
other store operation available, the run surfaces permission-denied, not
the internal error the claim demands for every failing store operation —
`hasClubPermission` swallows its store failure and returns false. -/
theorem c8_counterexample :
    (calculateTeamStatsRun mbUnavail exState (some "u") (some "t1") 7).2
        = Except.error ErrorCode.permissionDenied ∧
    (calculateTeamStatsRun mbUnavail exState (some "u") (some "t1") 7).2
        ≠ Except.error ErrorCode.internal :=
  ⟨by decide, by decide⟩

/-- C8 (amended): a store failure in the team read, either match query,
or the final write surfaces the internal error; a store failure in the
membership read inside `hasClubPermission` is caught there and surfaces
as permission-denied instead. No error is retried. -/
theorem c8_amended_error_surface (avail : Availability) (st : FirestoreState)
    (uid teamId : String) (team : TeamDoc) (now : Nat)
    (hne : teamId ≠ "") (hlk : lookupDoc teamId st.teams = some team) :
    (avail.teamRead = false →
      (calculateTeamStatsRun avail st (some uid) (some teamId) now).2
        = Except.error ErrorCode.internal) ∧
    (avail.teamRead = true → avail.membershipRead = false →
      (calculateTeamStatsRun avail st (some uid) (some teamId) now).2
        = Except.error ErrorCode.permissionDenied) ∧
    (avail.teamRead = true →
      hasClubPermission avail.membershipRead st.memberships uid team.clubId = true →
      avail.homeMatchesRead = false →
      (calculateTeamStatsRun avail st (some uid) (some teamId) now).2
        = Except.error ErrorCode.internal) ∧
    (avail.teamRead = true →
      hasClubPermission avail.membershipRead st.memberships uid team.clubId = true →
      avail.homeMatchesRead = true → avail.awayMatchesRead = false →
      (calculateTeamStatsRun avail st (some uid) (some teamId) now).2
        = Except.error ErrorCode.internal) ∧
    (avail.teamRead = true →
      hasClubPermission avail.membershipRead st.memberships uid team.clubId = true →
      avail.homeMatchesRead = true → avail.awayMatchesRead = true →
      avail.teamWrite = false →
      (calculateTeamStatsRun avail st (some uid) (some teamId) now).2
        = Except.error ErrorCode.internal) := by
  refine ⟨?_, ?_, ?_, ?_, ?_⟩
  · intro h1
    unfold calculateTeamStatsRun
    dsimp only
    rw [if_neg hne, if_neg (by rw [h1]; exact Bool.false_ne_true)]
  · intro htr hm
    unfold calculateTeamStatsRun
    dsimp only
    rw [if_neg hne, if_pos htr, hlk]
    dsimp only
    rw [if_neg (by rw [hm]; simp [hasClubPermission])]
  · intro htr hp h3
    unfold calculateTeamStatsRun
    dsimp only
    rw [if_neg hne, if_pos htr, hlk]
    dsimp only
    rw [if_pos hp, if_neg (by rw [h3]; exact Bool.false_ne_true)]
  · intro htr hp h3 h4
    unfold calculateTeamStatsRun
    dsimp only
    rw [if_neg hne, if_pos htr, hlk]
    dsimp only
    rw [if_pos hp, if_pos h3, if_neg (by rw [h4]; exact Bool.false_ne_true)]
  · intro htr hp h3 h4 h5
    unfold calculateTeamStatsRun
    dsimp only
    rw [if_neg hne, if_pos htr, hlk]
    dsimp only
    rw [if_pos hp, if_pos h3, if_pos h4]
    rw [if_neg (by rw [h5]; exact Bool.false_ne_true)]

/-- C8 witness: the amended error-surface theorem evaluated at the sample
store with the membership read unavailable. -/
theorem c8_amended_error_surface_witness :
    (("t1" : String) ≠ "" ∧ lookupDoc "t1" exState.teams = some exTeam) ∧
    ((mbUnavail.teamRead = false →
      (calculateTeamStatsRun mbUnavail exState (some "u") (some "t1") 7).2
        = Except.error ErrorCode.internal) ∧
    (mbUnavail.teamRead = true → mbUnavail.membershipRead = false →
      (calculateTeamStatsRun mbUnavail exState (some "u") (some "t1") 7).2
        = Except.error ErrorCode.permissionDenied) ∧
    (mbUnavail.teamRead = true →
      hasClubPermission mbUnavail.membershipRead exState.memberships "u" exTeam.clubId = true →
      mbUnavail.homeMatchesRead = false →
      (calculateTeamStatsRun mbUnavail exState (some "u") (some "t1") 7).2
        = Except.error ErrorCode.internal) ∧
    (mbUnavail.teamRead = true →
      hasClubPermission mbUnavail.membershipRead exState.memberships "u" exTeam.clubId = true →
      mbUnavail.homeMatchesRead = true → mbUnavail.awayMatchesRead = false →
      (calculateTeamStatsRun mbUnavail exState (some "u") (some "t1") 7).2
        = Except.error ErrorCode.internal) ∧
    (mbUnavail.teamRead = true →
      hasClubPermission mbUnavail.membershipRead exState.memberships "u" exTeam.clubId = true →
      mbUnavail.homeMatchesRead = true → mbUnavail.awayMatchesRead = true →
      mbUnavail.teamWrite = false →
      (calculateTeamStatsRun mbUnavail exState (some "u") (some "t1") 7).2
        = Except.error ErrorCode.internal)) :=
  ⟨⟨by decide, by decide⟩,
    c8_amended_error_surface mbUnavail exState "u" "t1" exTeam 7 (by decide) (by decide)⟩

/-- C9: a successful run changes only the targeted team document, and in
it only the stats field and the updated-at timestamp; every other team
document, the match collection, and the membership collection are
untouched. -/
theorem c9_frame_only_stats_updated (avail : Availability) (st st' : FirestoreState)
    (auth teamIdArg : Option String) (now : Nat) (s : TeamStats)
    (h : calculateTeamStatsRun avail st auth teamIdArg now = (st', Except.ok s)) :
    ∃ teamId team, teamIdArg = some teamId ∧
      lookupDoc teamId st.teams = some team ∧
      lookupDoc teamId st'.teams = some { team with stats := s, updatedAt := now } ∧
      (∀ t', t' ≠ teamId → lookupDoc t' st'.teams = lookupDoc t' st.teams) ∧
      st'.matchDocs = st.matchDocs ∧ st'.memberships = st.memberships := by
  obtain ⟨uid, teamId, team, hauth, htid, he, htr, hh, ha, hw, hlk, hp, hs, hst'⟩ :=
    calcRun_ok_elim avail st auth teamIdArg now st' s h
  subst hst'
  exact ⟨teamId, team, htid, hlk,
    lookupDoc_updateTeamDoc_self st.teams teamId s now team hlk,
    fun t' ht' => lookupDoc_updateTeamDoc_other st.teams teamId s now t' ht',
    rfl, rfl⟩

/-- C9 witness: the frame property observed on a concrete successful run
over the sample store. -/
theorem c9_frame_only_stats_updated_witness :
    calculateTeamStatsRun availAll exState (some "u") (some "t1") 7
      = (exStateAfter, Except.ok exStats1) ∧
    (∃ teamId team, (some "t1" : Option String) = some teamId ∧
      lookupDoc teamId exState.teams = some team ∧
      lookupDoc teamId exStateAfter.teams = some { team with stats := exStats1, updatedAt := 7 } ∧
      (∀ t', t' ≠ teamId → lookupDoc t' exStateAfter.teams = lookupDoc t' exState.teams) ∧
      exStateAfter.matchDocs = exState.matchDocs ∧
      exStateAfter.memberships = exState.memberships) :=
  ⟨by decide,
    c9_frame_only_stats_updated availAll exState exStateAfter (some "u") (some "t1") 7 exStats1
      (by decide)⟩

/-- C10: the optional penalty counts never influence the computed stats —
two match sets that agree after clearing penalty fields aggregate
identically — and a 2-2 draw decided 5-4 on penalties still counts as a
draw worth one point for each team. -/
theorem c10_penalties_ignored :
    (∀ (teamId : String) (ms ms' : List Match),
      ms.map stripPenalties = ms'.map stripPenalties →
      computeStats teamId ms = computeStats teamId ms') ∧
    computeStats "A" [mDrawPen] = ⟨1, 0, 1, 0, 2, 2, 1, ⟨StreakType.win, 0⟩⟩ ∧
    computeStats "B" [mDrawPen] = ⟨1, 0, 1, 0, 2, 2, 1, ⟨StreakType.win, 0⟩⟩ := by
  refine ⟨?_, by decide, by decide⟩
  intro teamId ms ms' hmap
  calc computeStats teamId ms
      = computeStats teamId (ms.map stripPenalties) := (computeStats_strip _ _).symm
    _ = computeStats teamId (ms'.map stripPenalties) := by rw [hmap]
    _ = computeStats teamId ms' := computeStats_strip _ _

/-- C10 witness: the penalty-blindness applied to the concrete 2-2 draw
with and without a recorded shootout. -/
theorem c10_penalties_ignored_witness :
    ([mDrawPen].map stripPenalties = [mDraw22].map stripPenalties) ∧
    computeStats "A" [mDrawPen] = computeStats "A" [mDraw22] :=
  ⟨by decide, c10_penalties_ignored.1 "A" [mDrawPen] [mDraw22] (by decide)⟩

end MyClub
